import Mathlib

/-!
Verification of the Gym motion-analysis core.

JS numbers are modelled by exact rationals.  The single irrational primitive
the code uses, `Math.sqrt` (and `Math.hypot`, which is a square root of a sum
of squares), is modelled by an explicit function parameter `sqrtFn : ℚ → ℚ`;
every theorem quantifies over it, so the theorems hold in particular for the
real square root.  `Date.now()` is modelled by an explicit integer timestamp
argument.  Mutable closure state becomes explicit state records, and the
JavaScript `TypeError` raised by reading a field of `undefined` is modelled by
an `Except` error result.
-/

/- The Batteries rational primitives are `@[irreducible]`, which blocks
elaborator-side evaluation of concrete witnesses; the kernel itself reduces
them fine.  Restore default reducibility so `rfl`/`decide` witnesses work. -/
set_option allowUnsafeReducibility true in
attribute [semireducible] Rat.add Rat.mul Rat.inv Rat.sub Rat.div

namespace Gym

/-- One 3-component vector (accelerometer or gyroscope reading). -/
structure Vec3 where
  x : ℚ
  y : ℚ
  z : ℚ
deriving DecidableEq, Repr

/-- Sum of squares of the components: the quantity `Math.hypot` takes the
square root of. -/
def Vec3.normSq (v : Vec3) : ℚ := v.x ^ 2 + v.y ^ 2 + v.z ^ 2

/-- Source `mag`: `Math.hypot(v[0], v[1], v[2]) || 1`.  The JS `|| 1` replaces
a zero magnitude by 1. -/
def magV (sqrtFn : ℚ → ℚ) (v : Vec3) : ℚ :=
  let m := sqrtFn v.normSq
  if m = 0 then 1 else m

/-- Source `normalize`: divide every component by `mag(v)`. -/
def normV (sqrtFn : ℚ → ℚ) (v : Vec3) : Vec3 :=
  ⟨v.x / magV sqrtFn v, v.y / magV sqrtFn v, v.z / magV sqrtFn v⟩

/-- Source `dot`. -/
def dotV (a b : Vec3) : ℚ := a.x * b.x + a.y * b.y + a.z * b.z

/-- Source `cross`. -/
def crossV (a b : Vec3) : Vec3 :=
  ⟨a.y * b.z - a.z * b.y, a.z * b.x - a.x * b.z, a.x * b.y - a.y * b.x⟩

/-- Bare `Math.hypot(a, b, c)` (no `|| 1` guard). -/
def hyp3 (sqrtFn : ℚ → ℚ) (a b c : ℚ) : ℚ := sqrtFn (a ^ 2 + b ^ 2 + c ^ 2)

/-- Sampling frequency `FS = 50`. -/
def FS : ℚ := 50

/-- Low-pass filter coefficient `LP_ALPHA = 0.25`. -/
def LP_ALPHA : ℚ := 1 / 4

/-- Gravity estimation smoothing `ACC_ALPHA = 0.5`. -/
def ACC_ALPHA : ℚ := 1 / 2

/-- The five supported exercise kinds. -/
inductive Exercise
  | NORMAL_CURL
  | HAMMER_CURL
  | CROSSBODY_HAMMER
  | ARNOLD_PRESS
  | GOBLET_SQUAT
deriving DecidableEq, Repr

/-- The threshold keys shared by all five profiles of `EXERCISE_THRESHOLDS`.
Profile-specific keys (`MIN_U_RATIO`, `MAX_V_RATIO`, `MIN_AZ_AMPLITUDE`, ...)
appear as literals inside the predicates that read them, exactly as the
`switch` statements access them. -/
structure Thresholds where
  minGyro : ℚ
  minRepGyro : ℚ
  energyThresh : ℚ
  minRepMs : ℤ
  minVertAcc : ℚ
  maxVertAcc : ℚ
  gyroPeakThresh : ℚ
deriving DecidableEq, Repr

/-- The `EXERCISE_THRESHOLDS` table. -/
def EXERCISE_THRESHOLDS : Exercise → Thresholds
  | .NORMAL_CURL => ⟨4/5, 2, 3/2, 950, 1/5, 3/2, 1/5⟩
  | .HAMMER_CURL => ⟨4/5, 3/2, 2, 800, 1/5, 3/2, 2/5⟩
  | .CROSSBODY_HAMMER => ⟨1, 2, 3, 1200, 3/10, 2, 3/5⟩
  | .ARNOLD_PRESS => ⟨6/5, 5/2, 4, 1200, 2/5, 5/2, 4/5⟩
  | .GOBLET_SQUAT => ⟨3/5, 1, 5, 1500, 1/2, 3, 3/10⟩

/-- Which strings are keys of `EXERCISE_THRESHOLDS` (and of the parallel
`exerciseStats` object).  For any other string the JS lookup yields
`undefined`. -/
def parseKey : String → Option Exercise
  | "NORMAL_CURL" => some .NORMAL_CURL
  | "HAMMER_CURL" => some .HAMMER_CURL
  | "CROSSBODY_HAMMER" => some .CROSSBODY_HAMMER
  | "ARNOLD_PRESS" => some .ARNOLD_PRESS
  | "GOBLET_SQUAT" => some .GOBLET_SQUAT
  | _ => none

/-- The per-sample feature record produced by `extractFeatures` (the fields
consumed downstream; display-only copies such as `rawAcc`, `rawGyro` and the
`timestamp` field are omitted, and `axisRatios` is flattened into the three
ratio fields). -/
structure Features where
  gU : ℚ
  gV : ℚ
  gW : ℚ
  aU : ℚ
  aV : ℚ
  aW : ℚ
  gyroMag : ℚ
  accMag : ℚ
  verticalAcc : ℚ
  avgGyro : ℚ
  avgAcc : ℚ
  dominantAxis : ℕ
  gURatio : ℚ
  gVRatio : ℚ
  gWRatio : ℚ
deriving DecidableEq, Repr

/-- State of one `createPeakDetector()` closure: the 5-sample sliding window
and the retained recent peaks, both as (value, timestamp) pairs. -/
structure PeakState where
  window : List (ℚ × ℤ)
  peaks : List (ℚ × ℤ)
deriving DecidableEq, Repr

def initPeakState : PeakState := ⟨[], []⟩

/-- The centered window test: `midIndex = Math.floor(window.length / 2)` and
`window.every((point, idx) => idx === midIndex || point.value <= midValue)`. -/
def isPeakWindow (w : List (ℚ × ℤ)) : Bool :=
  let mid := w.length / 2
  let midV := (w.getD mid (0, 0)).1
  (List.range w.length).all fun i => decide (i = mid) || decide ((w.getD i (0, 0)).1 ≤ midV)

/-- One `detect(value, timestamp)` call of `createPeakDetector()`. -/
def peakDetect (ps : PeakState) (v : ℚ) (t : ℤ) : PeakState × Option (ℚ × ℤ) :=
  let w1 := ps.window ++ [(v, t)]
  let w2 := if 5 < w1.length then w1.tail else w1
  if w2.length < 3 then ({ ps with window := w2 }, none)
  else if isPeakWindow w2 then
    let p := w2.getD (w2.length / 2) (0, 0)
    let pk1 := ps.peaks ++ [p]
    let pk2 := if 10 < pk1.length then pk1.tail else pk1
    ({ window := w2, peaks := pk2 }, some p)
  else ({ ps with window := w2 }, none)

/-- Movement state of the rep state machine. -/
inductive MState
  | IDLE
  | MOVING
deriving DecidableEq, Repr

/-- One entry of the `exerciseStats` object. -/
structure RepStats where
  good : ℕ
  bad : ℕ
  total : ℕ
deriving DecidableEq, Repr

/-- The whole `exerciseStats` object (one entry per supported exercise). -/
structure StatsTable where
  normalCurl : RepStats
  hammerCurl : RepStats
  crossbodyHammer : RepStats
  arnoldPress : RepStats
  gobletSquat : RepStats
deriving DecidableEq, Repr

def StatsTable.get (t : StatsTable) : Exercise → RepStats
  | .NORMAL_CURL => t.normalCurl
  | .HAMMER_CURL => t.hammerCurl
  | .CROSSBODY_HAMMER => t.crossbodyHammer
  | .ARNOLD_PRESS => t.arnoldPress
  | .GOBLET_SQUAT => t.gobletSquat

def StatsTable.set (t : StatsTable) (e : Exercise) (s : RepStats) : StatsTable :=
  match e with
  | .NORMAL_CURL => { t with normalCurl := s }
  | .HAMMER_CURL => { t with hammerCurl := s }
  | .CROSSBODY_HAMMER => { t with crossbodyHammer := s }
  | .ARNOLD_PRESS => { t with arnoldPress := s }
  | .GOBLET_SQUAT => { t with gobletSquat := s }

def zeroStats : StatsTable := ⟨⟨0, 0, 0⟩, ⟨0, 0, 0⟩, ⟨0, 0, 0⟩, ⟨0, 0, 0⟩, ⟨0, 0, 0⟩⟩

/-- The stat update performed on a confirmed rep: `total++` and exactly one of
`good++` / `bad++` according to the form judgment. -/
def bumpStats (t : StatsTable) (e : Exercise) (goodForm : Bool) : StatsTable :=
  let s := t.get e
  if goodForm then t.set e { s with good := s.good + 1, total := s.total + 1 }
  else t.set e { s with bad := s.bad + 1, total := s.total + 1 }

/-- The mutable state of one `createExerciseDetector(selectedExercise)`
closure (the selected-exercise variant).  `exerciseFeatures` is written but
never read by the detection logic and is omitted. -/
structure DetState where
  exerciseStats : StatsTable
  currentExercise : Option String
  lastRepTime : ℤ
  state : MState
  energy : ℚ
  lpFilter : ℚ
  gVec : Vec3
  accBuffer : Vec3
  gyroBuffer : List ℚ
  accMagnitudeBuffer : List ℚ
  peakState : PeakState
deriving DecidableEq, Repr

/-- Fresh `createExerciseDetector(selectedExercise)` state. -/
def initDetector (selectedExercise : Option String) : DetState :=
  { exerciseStats := zeroStats
    currentExercise := selectedExercise
    lastRepTime := 0
    state := .IDLE
    energy := 0
    lpFilter := 0
    gVec := ⟨0, 0, 981/100⟩
    accBuffer := ⟨0, 0, 981/100⟩
    gyroBuffer := []
    accMagnitudeBuffer := []
    peakState := initPeakState }

/-- Source `resetForNewExercise()`: clears the state machine, the filter, the
ring buffers and the peak detector — but touches neither `gVec`, `lastRepTime`,
`exerciseStats` nor `currentExercise`. -/
def resetForNewExercise (st : DetState) : DetState :=
  { st with
    state := .IDLE
    energy := 0
    lpFilter := 0
    gyroBuffer := []
    accMagnitudeBuffer := []
    peakState := initPeakState }

/-- Source `reset()`: zeroes the stats, forces IDLE, clears `lastRepTime` and
calls `resetForNewExercise()`.  Note that no branch of it writes `gVec`. -/
def resetDetector (st : DetState) : DetState :=
  resetForNewExercise
    { st with
      exerciseStats := zeroStats
      state := .IDLE
      lastRepTime := 0 }

/-- Mean of a rational list (the `reduce((a,b)=>a+b,0)/length` pattern). -/
def mean (l : List ℚ) : ℚ := l.sum / (l.length : ℚ)

/-- Source `extractFeatures(gyro, acc)`: gravity blending, gravity-aligned
frame construction, projections, magnitudes, ring-buffer averages, dominant
axis and axis ratios.  Returns the updated state together with the feature
record. -/
def extractFeatures (sqrtFn : ℚ → ℚ) (st : DetState) (gyro acc : Vec3) :
    DetState × Features :=
  let gVec1 : Vec3 :=
    ⟨(1 - ACC_ALPHA) * st.gVec.x + ACC_ALPHA * acc.x,
     (1 - ACC_ALPHA) * st.gVec.y + ACC_ALPHA * acc.y,
     (1 - ACC_ALPHA) * st.gVec.z + ACC_ALPHA * acc.z⟩
  let g := normV sqrtFn gVec1
  let u0 := crossV g ⟨1, 0, 0⟩
  let u1 := if magV sqrtFn u0 < 1/10 then crossV g ⟨0, 1, 0⟩ else u0
  let u := normV sqrtFn u1
  let v := crossV g u
  let w := g
  let gU := dotV gyro u
  let gV := dotV gyro v
  let gW := dotV gyro w
  let aU := dotV acc u
  let aV := dotV acc v
  let aW := dotV acc w
  let gyroMag := hyp3 sqrtFn gU gV gW
  let accMag := hyp3 sqrtFn acc.x acc.y acc.z
  let gb1 := st.gyroBuffer ++ [gyroMag]
  let gb2 := if 20 < gb1.length then gb1.tail else gb1
  let ab1 := st.accMagnitudeBuffer ++ [accMag]
  let ab2 := if 20 < ab1.length then ab1.tail else ab1
  let avgGyro := mean gb2
  let avgAcc := mean ab2
  let dominantAxis : ℕ :=
    if |gV| ≤ |gU| ∧ |gW| ≤ |gU| then 0 else if |gW| ≤ |gV| then 1 else 2
  let denom := if gyroMag = 0 then 1 else gyroMag
  ({ st with gVec := gVec1, gyroBuffer := gb2, accMagnitudeBuffer := ab2 },
   { gU := gU, gV := gV, gW := gW, aU := aU, aV := aV, aW := aW
     gyroMag := gyroMag, accMag := accMag, verticalAcc := aW
     avgGyro := avgGyro, avgAcc := avgAcc, dominantAxis := dominantAxis
     gURatio := |gU| / denom, gVRatio := |gV| / denom, gWRatio := |gW| / denom })

/-- The exercise-specific `isValidRep` switch inside `detectRep`. -/
def validRep : Exercise → Features → Bool
  | .GOBLET_SQUAT, f => decide (2 < |f.verticalAcc|)
  | .ARNOLD_PRESS, f => decide (1/2 < f.gWRatio)
  | .CROSSBODY_HAMMER, f => decide (f.gURatio * (6/5) < f.gVRatio)
  | .HAMMER_CURL, f => decide (f.gURatio < f.gVRatio)
  | .NORMAL_CURL, f => decide (f.gVRatio < f.gURatio)

/-- Source `checkGoodForm(features, exerciseType)`. -/
def checkGoodForm : Exercise → Features → Bool
  | .NORMAL_CURL, f =>
      decide (3/5 ≤ f.gURatio) && decide (f.gVRatio ≤ 3/10) &&
      decide ((EXERCISE_THRESHOLDS .NORMAL_CURL).minRepGyro * (7/10) ≤ f.gyroMag)
  | .HAMMER_CURL, f =>
      decide (3/5 ≤ f.gVRatio) && decide (f.gURatio ≤ 3/10) &&
      decide ((EXERCISE_THRESHOLDS .HAMMER_CURL).minRepGyro * (7/10) ≤ f.gyroMag)
  | .CROSSBODY_HAMMER, f =>
      decide (7/10 ≤ f.gVRatio) && decide (|f.gU| * (3/2) < |f.gV|)
  | .ARNOLD_PRESS, f =>
      decide (1/2 ≤ f.gWRatio) && decide (|f.gU| < |f.gW|) && decide (|f.gV| < |f.gW|)
  | .GOBLET_SQUAT, f =>
      decide (3/2 ≤ |f.verticalAcc|) && decide (f.gyroMag < 2)

/-- The rep-confirmation condition of `detectRep`: a peak arrived, the state
machine is MOVING, the peak clears `MIN_REP_GYRO`, the refractory gate
`timestamp - lastRepTime > MIN_REP_MS` passes, and the exercise-specific
validity predicate holds. -/
def repConfirm (ex : Exercise) (th : Thresholds) (f : Features)
    (peak : Option (ℚ × ℤ)) (s1 : MState) (lastRepTime t : ℤ) : Bool :=
  match peak with
  | none => false
  | some pk =>
      decide (s1 = .MOVING) && decide (th.minRepGyro < pk.1) &&
      decide (th.minRepMs < t - lastRepTime) && validRep ex f

/-- The hysteresis block of `detectRep`: enter MOVING (zeroing the energy)
above `MIN_GYRO`, fall back to IDLE below `MIN_GYRO * 0.3`; otherwise keep the
state and the freshly accumulated energy. -/
def movedOf (th : Thresholds) (s : MState) (gyroMag e1 : ℚ) : MState × ℚ :=
  if th.minGyro < gyroMag then
    (if s = .IDLE then (MState.MOVING, (0 : ℚ)) else (s, e1))
  else if gyroMag < th.minGyro * (3/10) ∧ s = .MOVING then (MState.IDLE, e1)
  else (s, e1)

/-- JS runtime failure: reading a property of `undefined`. -/
inductive JsError
  | typeError
deriving DecidableEq, Repr

/-- The `{ repDetected, isGoodForm }` part of the value `detectRep` returns. -/
structure RepResult where
  repDetected : Bool
  isGoodForm : Bool
deriving DecidableEq, Repr

/-- Source `detectRep(features, timestamp)` of the selected-exercise detector.
An unset (`null`) exercise returns the fixed no-rep result untouched; a set
but unknown key makes `EXERCISE_THRESHOLDS[currentExercise]` `undefined`, and
the first threshold read (`thresholds.MIN_GYRO`) raises a `TypeError`, which
the `Except.error` models.  A known key runs the filter, peak detection,
energy integral, hysteresis transitions and the rep-confirmation branch. -/
def detectRep (st : DetState) (f : Features) (t : ℤ) :
    Except JsError (DetState × RepResult) :=
  match st.currentExercise with
  | none => .ok (st, ⟨false, false⟩)
  | some key =>
    match parseKey key with
    | none => .error .typeError
    | some ex =>
      let th := EXERCISE_THRESHOLDS ex
      let lp := LP_ALPHA * f.gyroMag + (1 - LP_ALPHA) * st.lpFilter
      let pr := peakDetect st.peakState lp t
      let e1 := st.energy + lp / FS
      let moved := movedOf th st.state f.gyroMag e1
      match repConfirm ex th f pr.2 moved.1 st.lastRepTime t with
      | true =>
        let igf := checkGoodForm ex f
        .ok ({ st with
                lpFilter := lp
                peakState := pr.1
                energy := 0
                state := .IDLE
                lastRepTime := t
                exerciseStats := bumpStats st.exerciseStats ex igf },
             ⟨true, igf⟩)
      | false =>
        .ok ({ st with
                lpFilter := lp
                peakState := pr.1
                energy := moved.2
                state := moved.1 },
             ⟨false, false⟩)

/-- One sample delivered to `update`: raw gyro, raw accel, and the `Date.now()`
value observed during the call. -/
structure SampleIn where
  gyro : Vec3
  acc : Vec3
  t : ℤ
deriving DecidableEq, Repr

/-- Source `update(gyro, acc)`: extract features, then run rep detection. -/
def update (sqrtFn : ℚ → ℚ) (st : DetState) (inp : SampleIn) :
    Except JsError (DetState × RepResult) :=
  let ef := extractFeatures sqrtFn st inp.gyro inp.acc
  detectRep ef.1 ef.2 inp.t

/-- Run a whole sample stream through `update`, stopping at a thrown error. -/
def runDet (sqrtFn : ℚ → ℚ) (st : DetState) : List SampleIn → Except JsError DetState
  | [] => .ok st
  | i :: l =>
    match update sqrtFn st i with
    | .error e => .error e
    | .ok (st1, _) => runDet sqrtFn st1 l

/-- Timestamps of the confirmed reps along a run (stream truncated at a thrown
error). -/
def repTimes (sqrtFn : ℚ → ℚ) (st : DetState) : List SampleIn → List ℤ
  | [] => []
  | i :: l =>
    match update sqrtFn st i with
    | .error _ => []
    | .ok (st1, r) =>
      if r.repDetected then i.t :: repTimes sqrtFn st1 l else repTimes sqrtFn st1 l

/-! Second detector variant: `part_000` concatenates two source files, and
the auto-classifying `createExerciseDetector()` of the second file (with
`repCounts`, `accuracyStats`, `missedReps` and the stuck-movement recovery
inside its `detectRep`) has its own CONFIG block and threshold table, distinct
from the first file's. -/

/-- Sampling frequency of the auto-classify file: `FS = 10`. -/
def FS2 : ℚ := 10

/-- Low-pass coefficient of the auto-classify file: `LP_ALPHA = 0.3`. -/
def LP_ALPHA2 : ℚ := 3 / 10

/-- Gravity smoothing of the auto-classify file: `ACC_ALPHA = 0.1`. -/
def ACC_ALPHA2 : ℚ := 1 / 10

/-- The auto-classify file's own `EXERCISE_THRESHOLDS` table (it differs from
the first file's: NORMAL_CURL/HAMMER_CURL are 1.5 / 2.0 / 800 / 0.4, and
CROSSBODY_HAMMER has `MIN_REP_MS = 1000`). -/
def EXERCISE_THRESHOLDS2 : Exercise → Thresholds
  | .NORMAL_CURL => ⟨4/5, 3/2, 2, 800, 1/5, 3/2, 2/5⟩
  | .HAMMER_CURL => ⟨4/5, 3/2, 2, 800, 1/5, 3/2, 2/5⟩
  | .CROSSBODY_HAMMER => ⟨1, 2, 3, 1000, 3/10, 2, 3/5⟩
  | .ARNOLD_PRESS => ⟨6/5, 5/2, 4, 1200, 2/5, 5/2, 4/5⟩
  | .GOBLET_SQUAT => ⟨3/5, 1, 5, 1500, 1/2, 3, 3/10⟩

/-- The `repCounts` object (one counter per exercise). -/
structure CountTable where
  normalCurl : ℕ
  hammerCurl : ℕ
  crossbodyHammer : ℕ
  arnoldPress : ℕ
  gobletSquat : ℕ
deriving DecidableEq, Repr

def CountTable.bump (t : CountTable) : Exercise → CountTable
  | .NORMAL_CURL => { t with normalCurl := t.normalCurl + 1 }
  | .HAMMER_CURL => { t with hammerCurl := t.hammerCurl + 1 }
  | .CROSSBODY_HAMMER => { t with crossbodyHammer := t.crossbodyHammer + 1 }
  | .ARNOLD_PRESS => { t with arnoldPress := t.arnoldPress + 1 }
  | .GOBLET_SQUAT => { t with gobletSquat := t.gobletSquat + 1 }

/-- One entry of the `accuracyStats` object. -/
structure AccStats where
  correct : ℕ
  total : ℕ
deriving DecidableEq, Repr

/-- The whole `accuracyStats` object. -/
structure AccTable where
  normalCurl : AccStats
  hammerCurl : AccStats
  crossbodyHammer : AccStats
  arnoldPress : AccStats
  gobletSquat : AccStats
deriving DecidableEq, Repr

def AccTable.bump (t : AccTable) (g : Exercise) (correct : Bool) : AccTable :=
  let upd := fun (s : AccStats) =>
    if correct then AccStats.mk (s.correct + 1) (s.total + 1)
    else AccStats.mk s.correct (s.total + 1)
  match g with
  | .NORMAL_CURL => { t with normalCurl := upd t.normalCurl }
  | .HAMMER_CURL => { t with hammerCurl := upd t.hammerCurl }
  | .CROSSBODY_HAMMER => { t with crossbodyHammer := upd t.crossbodyHammer }
  | .ARNOLD_PRESS => { t with arnoldPress := upd t.arnoldPress }
  | .GOBLET_SQUAT => { t with gobletSquat := upd t.gobletSquat }

/-- Mutable state of the auto-classifying detector.  `currentExercise` is only
ever written with one of the five known kinds (by `classifyExercise`) or left
unset, so it is an `Option Exercise` here; `lastExerciseChange` belongs to the
classification cadence in `update` and is not needed by `detectRep`. -/
structure DetState2 where
  repCounts : CountTable
  accuracyStats : AccTable
  missedReps : ℕ
  currentExercise : Option Exercise
  lastRepTime : ℤ
  state : MState
  energy : ℚ
  lpFilter : ℚ
  gVec : Vec3
  gyroBuffer : List ℚ
  accMagnitudeBuffer : List ℚ
  peakState : PeakState
deriving DecidableEq, Repr

/-- The `{ repDetected, detectedExerciseType, isCorrect }` result of the
auto-classifying `detectRep`. -/
structure RepResult2 where
  repDetected : Bool
  detectedExerciseType : Exercise
  isCorrect : Option Bool
deriving DecidableEq, Repr

/-- Everything the auto-classifying `detectRep(features, timestamp,
groundTruthExercise)` does before its missed-rep check: filter, peak
detection, energy integral, hysteresis transitions and the rep-confirmation
branch (which counts into `repCounts` and `accuracyStats` and stamps
`lastRepTime`). -/
def repPhase2 (ex : Exercise) (th : Thresholds) (st : DetState2) (f : Features)
    (t : ℤ) (groundTruth : Option Exercise) : DetState2 × RepResult2 :=
  let lp := LP_ALPHA2 * f.gyroMag + (1 - LP_ALPHA2) * st.lpFilter
  let pr := peakDetect st.peakState lp t
  let e1 := st.energy + lp / FS2
  let moved := movedOf th st.state f.gyroMag e1
  if repConfirm ex th f pr.2 moved.1 st.lastRepTime t then
    let acc1 :=
      match groundTruth with
      | none => st.accuracyStats
      | some g => st.accuracyStats.bump g (decide (ex = g))
    ({ st with
        lpFilter := lp
        peakState := pr.1
        energy := 0
        state := .IDLE
        lastRepTime := t
        repCounts := st.repCounts.bump ex
        accuracyStats := acc1 },
     ⟨true, ex, groundTruth.map fun g => decide (ex = g)⟩)
  else
    ({ st with
        lpFilter := lp
        peakState := pr.1
        energy := moved.2
        state := moved.1 },
     ⟨false, ex, groundTruth.map fun g => decide (ex = g)⟩)

/-- The stuck-movement recovery at the end of the auto-classifying
`detectRep`: if still MOVING more than 3000 ms after the last confirmed rep
with accumulated energy above half the exercise energy threshold, count a
missed rep and force `state = IDLE`, `energy = 0`. -/
def missedRepCheck (th : Thresholds) (st : DetState2) (t : ℤ) : DetState2 :=
  if st.state = .MOVING ∧ 3000 < t - st.lastRepTime then
    if th.energyThresh * (1/2) < st.energy then
      { st with missedReps := st.missedReps + 1, state := .IDLE, energy := 0 }
    else st
  else st

/-- The auto-classifying `detectRep(features, timestamp, groundTruthExercise)`:
the rep phase followed by the missed-rep check.  With no current exercise the
source returns `false` immediately, touching nothing. -/
def detectRep2 (st : DetState2) (f : Features) (t : ℤ)
    (groundTruth : Option Exercise) : DetState2 × Option RepResult2 :=
  match st.currentExercise with
  | none => (st, none)
  | some ex =>
    let th := EXERCISE_THRESHOLDS2 ex
    let p := repPhase2 ex th st f t groundTruth
    (missedRepCheck th p.1 t, some p.2)

/-! The batch pipeline `processIMURealtime(imuBuffer, fs)`. -/

/-- One row of `imuBuffer` (the unused `t` field is omitted: the batch code
never reads it). -/
structure Sample where
  ax : ℚ
  ay : ℚ
  az : ℚ
  gx : ℚ
  gy : ℚ
  gz : ℚ
deriving DecidableEq, Repr

/-- Source `std`: population standard deviation, a square root of the mean
squared deviation. -/
def std (sqrtFn : ℚ → ℚ) (l : List ℚ) : ℚ :=
  sqrtFn (mean (l.map fun v => (v - mean l) ^ 2))

/-- Source `movingAverage(x, win)`: mean over the clamped half-open slice
`[max(0, i-win), min(len, i+win))` at every index. -/
def movingAverage (x : List ℚ) (win : ℕ) : List ℚ :=
  (List.range x.length).map fun i =>
    mean ((x.drop (i - win)).take (min x.length (i + win) - (i - win)))

/-- Source `smooth(x, cutoff)`: the cutoff argument is ignored and the window
is `max(1, Math.floor(0.2 * fs))`. -/
def smooth (fs : ℕ) (x : List ℚ) : List ℚ :=
  movingAverage x (max 1 (fs / 5))

/-- Sign with the `GYRO_MIN_MAG` dead zone: `Math.abs(v) < 0.05 ? 0 :
Math.sign(v)`. -/
def deadSign (v : ℚ) : ℤ :=
  if |v| < 1/20 then 0 else if 0 < v then 1 else if v < 0 then -1 else 0

/-- Loop state of the gyro zero-crossing segmentation. -/
structure GyroSegState where
  lastSign : ℤ
  start : Option ℕ
  reps : List (ℕ × ℕ)
deriving DecidableEq, Repr

/-- One iteration of the gyro zero-crossing loop over `gSig`. -/
def gyroSegStep (fs : ℕ) (gSig : List ℚ) (st : GyroSegState) (iv : ℕ × ℚ) :
    GyroSegState :=
  let i := iv.1
  let sign := deadSign iv.2
  let st1 :=
    if sign ≠ 0 ∧ st.lastSign ≠ 0 ∧ sign ≠ st.lastSign then
      match st.start with
      | none => { st with start := some i }
      | some s0 =>
        let reps1 :=
          if (3 * fs) / 10 ≤ i - s0 then
            let e := (((gSig.drop s0).take (i - s0)).map fun b => |b|).sum / (fs : ℚ)
            if 1/5 < e then st.reps ++ [(s0, i)] else st.reps
          else st.reps
        { st with start := none, reps := reps1 }
    else st
  if sign ≠ 0 then { st1 with lastSign := sign } else st1

/-- Gyro-based rep windows of a smoothed signal. -/
def gyroRepsOf (fs : ℕ) (gSig : List ℚ) : List (ℕ × ℕ) :=
  (gSig.enum.foldl (gyroSegStep fs gSig) ⟨0, none, []⟩).reps

/-- Loop state of the accelerometer threshold-window segmentation. -/
structure AccSegState where
  above : Bool
  start : ℕ
  reps : List (ℕ × ℕ)
deriving DecidableEq, Repr

/-- One iteration of the accelerometer threshold loop over `aSig`. -/
def accSegStep (fs : ℕ) (st : AccSegState) (iv : ℕ × ℚ) : AccSegState :=
  if 1/20 < iv.2 ∧ st.above = false then
    { st with start := iv.1, above := true }
  else if iv.2 < 1/20 ∧ st.above = true then
    { st with
      above := false
      reps := if fs / 2 ≤ iv.1 - st.start then st.reps ++ [(st.start, iv.1)] else st.reps }
  else st

/-- Accelerometer-based rep windows of a smoothed magnitude signal. -/
def accelRepsOf (fs : ℕ) (aSig : List ℚ) : List (ℕ × ℕ) :=
  (aSig.enum.foldl (accSegStep fs) ⟨false, 0, []⟩).reps

/-- First index attaining the maximum of three values
(`indexOf(Math.max(...))`). -/
def argmax3 (v0 v1 v2 : ℚ) : ℕ :=
  if v1 ≤ v0 ∧ v2 ≤ v0 then 0 else if v2 ≤ v1 then 1 else 2

/-- The gyro axis of highest standard deviation, raw. -/
def gRawOf (sqrtFn : ℚ → ℚ) (buf : List Sample) : List ℚ :=
  let vx := std sqrtFn (buf.map fun d => d.gx)
  let vy := std sqrtFn (buf.map fun d => d.gy)
  let vz := std sqrtFn (buf.map fun d => d.gz)
  match argmax3 vx vy vz with
  | 0 => buf.map fun d => d.gx
  | 1 => buf.map fun d => d.gy
  | _ => buf.map fun d => d.gz

/-- Per-sample accelerometer magnitude `Math.sqrt(ax²+ay²+az²)`. -/
def accMagsOf (sqrtFn : ℚ → ℚ) (buf : List Sample) : List ℚ :=
  buf.map fun d => sqrtFn (d.ax ^ 2 + d.ay ^ 2 + d.az ^ 2)

/-- Sensor selection: prefer the gyro windows when they are at least as many
as the accel windows and at least 3; otherwise take the accel windows. -/
def selectedReps (sqrtFn : ℚ → ℚ) (buf : List Sample) (fs : ℕ) :
    List (ℕ × ℕ) × String :=
  let gyroReps := gyroRepsOf fs (smooth fs (gRawOf sqrtFn buf))
  let accelReps := accelRepsOf fs (smooth fs (accMagsOf sqrtFn buf))
  if accelReps.length ≤ gyroReps.length ∧ 3 ≤ gyroReps.length then
    (gyroReps, "GYRO")
  else (accelReps, "ACCEL")

/-- A six-channel standard-deviation vector (segment statistics or one row of
`REFERENCE_SD`). -/
structure SDVec where
  ax : ℚ
  ay : ℚ
  az : ℚ
  gx : ℚ
  gy : ℚ
  gz : ℚ
deriving DecidableEq, Repr

/-- The `BICEP` row of `REFERENCE_SD`. -/
def bicepRef : String × SDVec :=
  ("BICEP", ⟨703/100, 557/100, 111/100, 34/100, 40/100, 209/100⟩)

/-- The `HAMMER` row of `REFERENCE_SD`. -/
def hammerRef : String × SDVec :=
  ("HAMMER", ⟨306/100, 182/100, 285/100, 61/100, 175/100, 29/100⟩)

/-- The `ARNOLD` row of `REFERENCE_SD`. -/
def arnoldRef : String × SDVec :=
  ("ARNOLD", ⟨52/10, 61/10, 34/10, 15/100, 18/100, 22/100⟩)

/-- The fixed `REFERENCE_SD` table, in object-key order. -/
def REFERENCE_SD : List (String × SDVec) := [bicepRef, hammerRef, arnoldRef]

/-- Squared Euclidean distance between six-channel vectors; the source
distance is `Math.sqrt` of this. -/
def distSq (a b : SDVec) : ℚ :=
  (a.ax - b.ax) ^ 2 + (a.ay - b.ay) ^ 2 + (a.az - b.az) ^ 2 +
  (a.gx - b.gx) ^ 2 + (a.gy - b.gy) ^ 2 + (a.gz - b.gz) ^ 2

/-- One iteration of the nearest-reference loop: keep the strictly closer
reference (initial best distance is `Infinity`, modelled by `⊤`). -/
def classifyStep (sqrtFn : ℚ → ℚ) (sd : SDVec) (best : String × WithTop ℚ)
    (kv : String × SDVec) : String × WithTop ℚ :=
  let d := sqrtFn (distSq sd kv.2)
  if (d : WithTop ℚ) < best.2 then (kv.1, (d : WithTop ℚ)) else best

/-- The `best` record after the nearest-reference loop. -/
def bestRef (sqrtFn : ℚ → ℚ) (sd : SDVec) : String × WithTop ℚ :=
  REFERENCE_SD.foldl (classifyStep sqrtFn sd) ("UNKNOWN", ⊤)

/-- `rawLabel`: `best.dist > MAX_CLASS_DIST ? "UNKNOWN" : best.label` with
`MAX_CLASS_DIST = 5`. -/
def rawLabelOf (sqrtFn : ℚ → ℚ) (sd : SDVec) : String :=
  if ((5 : ℚ) : WithTop ℚ) < (bestRef sqrtFn sd).2 then "UNKNOWN"
  else (bestRef sqrtFn sd).1

/-- The per-call `counts` object. -/
structure RepCounts where
  goodBicep : ℕ
  badCurl : ℕ
deriving DecidableEq, Repr

/-- The non-null result of `processIMURealtime`. -/
structure ProcOut where
  source : String
  repWindow : ℚ × ℚ
  rawLabel : String
  finalLabel : String
  counts : RepCounts
deriving DecidableEq, Repr

/-- The six per-channel standard deviations of a rep-window segment. -/
def sdOfSeg (sqrtFn : ℚ → ℚ) (seg : List Sample) : SDVec :=
  ⟨std sqrtFn (seg.map fun d => d.ax), std sqrtFn (seg.map fun d => d.ay),
   std sqrtFn (seg.map fun d => d.az), std sqrtFn (seg.map fun d => d.gx),
   std sqrtFn (seg.map fun d => d.gy), std sqrtFn (seg.map fun d => d.gz)⟩

/-- The non-null result record assembled for the last rep window `se`:
classification of the `imuBuffer.slice(s, e)` segment, the final good-bicep /
bad-curl labelling and the `counts[finalLabel]++` tally. -/
def procResult (sqrtFn : ℚ → ℚ) (imuBuffer : List Sample) (fs : ℕ)
    (se : ℕ × ℕ) : ProcOut :=
  let seg := (imuBuffer.drop se.1).take (se.2 - se.1)
  let raw := rawLabelOf sqrtFn (sdOfSeg sqrtFn seg)
  let finalLabel := if raw = "BICEP" then "GOOD_BICEP" else "BAD_CURL"
  { source := (selectedReps sqrtFn imuBuffer fs).2
    repWindow := ((se.1 : ℚ) / (fs : ℚ), (se.2 : ℚ) / (fs : ℚ))
    rawLabel := raw
    finalLabel := finalLabel
    counts := if finalLabel = "GOOD_BICEP" then ⟨1, 0⟩ else ⟨0, 1⟩ }

/-- Source `processIMURealtime(imuBuffer, fs)`: length guard, both
segmentations, sensor selection, classification of the last rep window, and
the good-bicep / bad-curl tally. -/
def processIMURealtime (sqrtFn : ℚ → ℚ) (imuBuffer : List Sample) (fs : ℕ) :
    Option ProcOut :=
  if imuBuffer.length < fs then none
  else
    match (selectedReps sqrtFn imuBuffer fs).1.getLast? with
    | none => none
    | some se => some (procResult sqrtFn imuBuffer fs se)

/-! ## Square-root models, predicates and concrete inputs used by witnesses -/

/-- The constant-1 square-root model used in concrete witnesses. -/
def sqrtOne : ℚ → ℚ := fun _ => 1

/-- The identity square-root model used in concrete witnesses (strictly
monotone, and zero at zero). -/
def sqrtId : ℚ → ℚ := fun q => q

def c1Samples : List SampleIn := [⟨⟨0, 1, 0⟩, ⟨0, 0, 981/100⟩, 0⟩]

def c1FinalState : DetState :=
  match runDet sqrtOne (initDetector (some "NORMAL_CURL")) c1Samples with
  | .ok s => s
  | .error _ => initDetector none

def c2StartState : DetState :=
  { initDetector (some "NORMAL_CURL") with
    state := .MOVING
    peakState := ⟨[(0, -2), (3, -1)], []⟩ }

def c2Input : SampleIn := ⟨⟨0, 1, 0⟩, ⟨0, 0, 981/100⟩, 2000⟩

def c2Step : DetState × RepResult :=
  match update sqrtOne c2StartState c2Input with
  | .ok p => p
  | .error _ => (initDetector none, ⟨false, false⟩)

def c3StartState : DetState :=
  { initDetector (some "HAMMER_CURL") with
    state := .MOVING
    energy := 7
    peakState := ⟨[(0, -2), (3, -1)], []⟩ }

def c3Input : SampleIn := ⟨⟨1, 0, 0⟩, ⟨0, 0, 981/100⟩, 3000⟩

def c3Step : DetState × RepResult :=
  match update sqrtOne c3StartState c3Input with
  | .ok p => p
  | .error _ => (initDetector none, ⟨false, false⟩)

def c4Input1 : SampleIn := ⟨⟨0, 0, 0⟩, ⟨981/100, 0, 0⟩, 0⟩

def c4AfterReset : DetState :=
  match update sqrtOne (initDetector (some "NORMAL_CURL")) c4Input1 with
  | .ok p => resetDetector p.1
  | .error _ => initDetector none

def c9Features : Features := ⟨0, 0, 0, 0, 0, 0, 0, 0, 0, 0, 0, 0, 0, 0, 0⟩

def c5Start : DetState2 :=
  { repCounts := ⟨0, 0, 0, 0, 0⟩
    accuracyStats := ⟨⟨0, 0⟩, ⟨0, 0⟩, ⟨0, 0⟩, ⟨0, 0⟩, ⟨0, 0⟩⟩
    missedReps := 0
    currentExercise := some .NORMAL_CURL
    lastRepTime := 0
    state := .MOVING
    energy := 10
    lpFilter := 0
    gVec := ⟨0, 0, 981/100⟩
    gyroBuffer := []
    accMagnitudeBuffer := []
    peakState := initPeakState }

def c5Feat : Features := ⟨0, 0, 0, 0, 0, 0, 1, 0, 0, 0, 0, 0, 0, 0, 0⟩

/-- Feed a list of (value, timestamp) pairs through one peak detector,
collecting the per-call results. -/
def peakRunOuts (ps : PeakState) : List (ℚ × ℤ) → List (Option (ℚ × ℤ))
  | [] => []
  | (v, t) :: l =>
    let r := peakDetect ps v t
    r.2 :: peakRunOuts r.1 l

def c6Input : List (ℚ × ℤ) :=
  [(1, 0), (2, 1), (3, 2), (5, 3), (5, 4), (5, 5), (5, 6), (5, 7)]

/-- The distance the loop computes for one reference row. -/
def refDist (sqrtFn : ℚ → ℚ) (sd : SDVec) (p : String × SDVec) : ℚ :=
  sqrtFn (distSq sd p.2)

def c10Buf : List Sample :=
  [⟨0, 0, 1, 0, 0, 0⟩, ⟨0, 0, 1, 0, 0, 0⟩, ⟨0, 0, 0, 0, 0, 0⟩, ⟨0, 0, 0, 0, 0, 0⟩]

def c10Out : ProcOut :=
  match processIMURealtime sqrtId c10Buf 1 with
  | some r => r
  | none => ⟨"", (0, 0), "", "", ⟨0, 0⟩⟩

/-- The per-exercise `good + bad = total` predicate. -/
def statsInv (s : DetState) : Prop :=
  ∀ e : Exercise,
    (s.exerciseStats.get e).good + (s.exerciseStats.get e).bad = (s.exerciseStats.get e).total

/-! ## Helper lemmas about the streaming detector -/

theorem repConfirm_gate {ex : Exercise} {th : Thresholds} {f : Features}
    {peak : Option (ℚ × ℤ)} {s1 : MState} {lastRepTime t : ℤ}
    (h : repConfirm ex th f peak s1 lastRepTime t = true) :
    th.minRepMs < t - lastRepTime := by
  cases peak with
  | none => simp [repConfirm] at h
  | some pk =>
    simp only [repConfirm, Bool.and_eq_true, decide_eq_true_eq] at h
    exact h.1.2

theorem extractFeatures_exerciseStats (sqrtFn : ℚ → ℚ) (st : DetState) (g a : Vec3) :
    (extractFeatures sqrtFn st g a).1.exerciseStats = st.exerciseStats := rfl

theorem extractFeatures_currentExercise (sqrtFn : ℚ → ℚ) (st : DetState) (g a : Vec3) :
    (extractFeatures sqrtFn st g a).1.currentExercise = st.currentExercise := rfl

theorem extractFeatures_lastRepTime (sqrtFn : ℚ → ℚ) (st : DetState) (g a : Vec3) :
    (extractFeatures sqrtFn st g a).1.lastRepTime = st.lastRepTime := rfl

/-- Full case characterization of a non-throwing `detectRep` call: the selected
exercise is never changed; a confirmed rep bumps exactly the current
exercise's stats, forces IDLE with zero energy, stamps `lastRepTime` with the
call timestamp and can only happen more than `MIN_REP_MS` after the previous
stamp; a non-confirming call leaves stats and `lastRepTime` alone. -/
theorem detectRep_ok_char {st : DetState} {f : Features} {t : ℤ} {st' : DetState}
    {r : RepResult} (h : detectRep st f t = .ok (st', r)) :
    st'.currentExercise = st.currentExercise ∧
    (r.repDetected = true →
       ∃ k ex, st.currentExercise = some k ∧ parseKey k = some ex ∧
         st'.exerciseStats = bumpStats st.exerciseStats ex r.isGoodForm ∧
         st'.state = .IDLE ∧ st'.energy = 0 ∧ st'.lastRepTime = t ∧
         (EXERCISE_THRESHOLDS ex).minRepMs < t - st.lastRepTime) ∧
    (r.repDetected = false →
       st'.exerciseStats = st.exerciseStats ∧ st'.lastRepTime = st.lastRepTime) := by
  unfold detectRep at h
  split at h
  · simp only [Except.ok.injEq, Prod.mk.injEq] at h
    obtain ⟨rfl, rfl⟩ := h
    refine ⟨rfl, ?_, fun _ => ⟨rfl, rfl⟩⟩
    intro hfalse
    simp at hfalse
  · rename_i key hce
    split at h
    · exact absurd h (by simp)
    · rename_i ex hpk
      dsimp only at h
      split at h
      · rename_i hconf
        simp only [Except.ok.injEq, Prod.mk.injEq] at h
        obtain ⟨rfl, rfl⟩ := h
        refine ⟨rfl, ?_, ?_⟩
        · intro _
          exact ⟨key, ex, hce, hpk, rfl, rfl, rfl, rfl, repConfirm_gate hconf⟩
        · intro hfalse
          simp at hfalse
      · simp only [Except.ok.injEq, Prod.mk.injEq] at h
        obtain ⟨rfl, rfl⟩ := h
        exact ⟨rfl, fun htrue => by simp at htrue, fun _ => ⟨rfl, rfl⟩⟩

/-- The same characterization lifted to `update` (feature extraction touches
only `gVec` and the ring buffers). -/
theorem update_ok_char {sqrtFn : ℚ → ℚ} {st : DetState} {i : SampleIn}
    {st' : DetState} {r : RepResult} (h : update sqrtFn st i = .ok (st', r)) :
    st'.currentExercise = st.currentExercise ∧
    (r.repDetected = true →
       ∃ k ex, st.currentExercise = some k ∧ parseKey k = some ex ∧
         st'.exerciseStats = bumpStats st.exerciseStats ex r.isGoodForm ∧
         st'.state = .IDLE ∧ st'.energy = 0 ∧ st'.lastRepTime = i.t ∧
         (EXERCISE_THRESHOLDS ex).minRepMs < i.t - st.lastRepTime) ∧
    (r.repDetected = false →
       st'.exerciseStats = st.exerciseStats ∧ st'.lastRepTime = st.lastRepTime) := by
  have hc := @detectRep_ok_char (extractFeatures sqrtFn st i.gyro i.acc).1
    (extractFeatures sqrtFn st i.gyro i.acc).2 i.t st' r h
  rw [extractFeatures_currentExercise, extractFeatures_exerciseStats,
      extractFeatures_lastRepTime] at hc
  exact hc

/-- How `bumpStats` acts entrywise. -/
theorem bumpStats_get (tbl : StatsTable) (ex : Exercise) (gf : Bool) :
    (((bumpStats tbl ex gf).get ex).total = (tbl.get ex).total + 1 ∧
     (gf = true → ((bumpStats tbl ex gf).get ex).good = (tbl.get ex).good + 1 ∧
        ((bumpStats tbl ex gf).get ex).bad = (tbl.get ex).bad) ∧
     (gf = false → ((bumpStats tbl ex gf).get ex).bad = (tbl.get ex).bad + 1 ∧
        ((bumpStats tbl ex gf).get ex).good = (tbl.get ex).good)) ∧
    ∀ e, e ≠ ex → (bumpStats tbl ex gf).get e = tbl.get e := by
  constructor
  · cases ex <;> cases gf <;>
      simp [bumpStats, StatsTable.get, StatsTable.set]
  · intro e he
    cases ex <;> cases e <;> first
      | exact absurd rfl he
      | cases gf <;> simp [bumpStats, StatsTable.get, StatsTable.set]

theorem statsInv_update {sqrtFn : ℚ → ℚ} {st : DetState} {i : SampleIn}
    {st' : DetState} {r : RepResult} (h : update sqrtFn st i = .ok (st', r))
    (hs : statsInv st) : statsInv st' := by
  obtain ⟨-, htrue, hfalse⟩ := update_ok_char h
  cases hr : r.repDetected with
  | false =>
    intro e
    rw [(hfalse hr).1]
    exact hs e
  | true =>
    obtain ⟨k, ex, -, -, hbump, -⟩ := htrue hr
    intro e
    rw [hbump]
    by_cases he : e = ex
    · subst he
      obtain ⟨⟨ht, hg, hb⟩, -⟩ := bumpStats_get st.exerciseStats e r.isGoodForm
      cases hgf : r.isGoodForm with
      | true =>
        obtain ⟨h1, h2⟩ := hg hgf
        rw [hgf] at h1 h2 ht
        rw [h1, h2, ht]
        have hse := hs e
        omega
      | false =>
        obtain ⟨h1, h2⟩ := hb hgf
        rw [hgf] at h1 h2 ht
        rw [h1, h2, ht]
        have hse := hs e
        omega
    · rw [(bumpStats_get st.exerciseStats ex r.isGoodForm).2 e he]
      exact hs e

theorem statsInv_runDet {sqrtFn : ℚ → ℚ} :
    ∀ (l : List SampleIn) (st : DetState), statsInv st →
      ∀ s, runDet sqrtFn st l = .ok s → statsInv s := by
  intro l
  induction l with
  | nil =>
    intro st hst s h
    simp only [runDet, Except.ok.injEq] at h
    exact h ▸ hst
  | cons i l ih =>
    intro st hst s h
    simp only [runDet] at h
    split at h
    · exact absurd h (by simp)
    · rename_i st1 r hupd
      exact ih st1 (statsInv_update hupd hst) s h

/-! ## C1: per-exercise `good + bad = total` -/

/-- C1: for every sequence of `update` calls (any square-root model, any
selected key, any sample stream) every non-throwing run keeps
`good + bad = total` for every exercise; each confirmed rep increments the
current exercise's `total` exactly once together with exactly one of `good` /
`bad` (all other exercises untouched), a non-confirming call changes no stats,
and `reset()` zeroes all three counters of every exercise together. -/
theorem c1_stats_invariant :
    (∀ (sqrtFn : ℚ → ℚ) (k : Option String) (l : List SampleIn) (s : DetState),
        runDet sqrtFn (initDetector k) l = .ok s →
        ∀ e : Exercise,
          (s.exerciseStats.get e).good + (s.exerciseStats.get e).bad
            = (s.exerciseStats.get e).total)
    ∧ (∀ (sqrtFn : ℚ → ℚ) (st : DetState) (i : SampleIn) (st' : DetState)
          (r : RepResult), update sqrtFn st i = .ok (st', r) →
        (r.repDetected = true →
          ∃ k ex, st.currentExercise = some k ∧ parseKey k = some ex ∧
            (st'.exerciseStats.get ex).total = (st.exerciseStats.get ex).total + 1 ∧
            ((r.isGoodForm = true →
                (st'.exerciseStats.get ex).good = (st.exerciseStats.get ex).good + 1 ∧
                (st'.exerciseStats.get ex).bad = (st.exerciseStats.get ex).bad) ∧
             (r.isGoodForm = false →
                (st'.exerciseStats.get ex).bad = (st.exerciseStats.get ex).bad + 1 ∧
                (st'.exerciseStats.get ex).good = (st.exerciseStats.get ex).good)) ∧
            ∀ e, e ≠ ex → st'.exerciseStats.get e = st.exerciseStats.get e) ∧
        (r.repDetected = false → st'.exerciseStats = st.exerciseStats))
    ∧ (∀ (st : DetState) (e : Exercise),
        (resetDetector st).exerciseStats.get e = ⟨0, 0, 0⟩) := by
  refine ⟨?_, ?_, ?_⟩
  · intro sqrtFn k l s h e
    have hinit : statsInv (initDetector k) := by
      intro e'
      cases e' <;> rfl
    exact statsInv_runDet l (initDetector k) hinit s h e
  · intro sqrtFn st i st' r h
    obtain ⟨-, htrue, hfalse⟩ := update_ok_char h
    refine ⟨?_, fun hr => (hfalse hr).1⟩
    intro hr
    obtain ⟨k, ex, hk, hpk, hbump, -⟩ := htrue hr
    obtain ⟨⟨ht, hg, hb⟩, hother⟩ := bumpStats_get st.exerciseStats ex r.isGoodForm
    rw [← hbump] at ht hg hb hother
    exact ⟨k, ex, hk, hpk, ht, ⟨hg, hb⟩, hother⟩
  · intro st e
    cases e <;> rfl

theorem c1_stats_invariant_witness :
    (c1FinalState.exerciseStats.get .NORMAL_CURL).good
        + (c1FinalState.exerciseStats.get .NORMAL_CURL).bad
      = (c1FinalState.exerciseStats.get .NORMAL_CURL).total := by
  have h : runDet sqrtOne (initDetector (some "NORMAL_CURL")) c1Samples
      = .ok c1FinalState := rfl
  exact c1_stats_invariant.1 sqrtOne (some "NORMAL_CURL") c1Samples c1FinalState h
    .NORMAL_CURL

/-! ## C2: refractory period -/

theorem minRepMs_pos (ex : Exercise) : 0 < (EXERCISE_THRESHOLDS ex).minRepMs := by
  cases ex <;> decide

/-- Consecutive confirmed-rep timestamps along a run are separated by more
than `MIN_REP_MS`, and every confirmed rep is more than `MIN_REP_MS` after the
incoming `lastRepTime`. -/
theorem repTimes_chain {sqrtFn : ℚ → ℚ} {k : String} {ex : Exercise}
    (hk : parseKey k = some ex) :
    ∀ (l : List SampleIn) (st : DetState), st.currentExercise = some k →
      ((repTimes sqrtFn st l).Chain'
         fun a b => (EXERCISE_THRESHOLDS ex).minRepMs < b - a)
      ∧ ∀ x ∈ repTimes sqrtFn st l,
          (EXERCISE_THRESHOLDS ex).minRepMs < x - st.lastRepTime := by
  intro l
  induction l with
  | nil =>
    intro st hst
    exact ⟨List.chain'_nil, by simp [repTimes]⟩
  | cons i l ih =>
    intro st hst
    rcases hupd : update sqrtFn st i with e | ⟨st1, r⟩
    · simp only [repTimes, hupd]
      exact ⟨List.chain'_nil, by simp⟩
    · obtain ⟨hcur, htrue, hfalse⟩ := update_ok_char hupd
      have hst1 : st1.currentExercise = some k := by rw [hcur, hst]
      obtain ⟨ihc, ihall⟩ := ih st1 hst1
      by_cases hr : r.repDetected = true
      · obtain ⟨k2, ex2, hk2, hpk2, -, -, -, hlast, hgate⟩ := htrue hr
        have hkk : k2 = k := by
          rw [hst] at hk2
          exact (Option.some.inj hk2).symm
        subst hkk
        have hexx : ex2 = ex := by
          rw [hk] at hpk2
          exact (Option.some.inj hpk2).symm
        subst hexx
        rw [hlast] at ihall
        simp only [repTimes, hupd, hr, if_true]
        constructor
        · refine List.chain'_cons'.mpr ⟨?_, ihc⟩
          intro y hy
          exact ihall y (List.mem_of_mem_head? hy)
        · intro x hx
          rcases List.mem_cons.mp hx with hx1 | hx2
          · subst hx1
            exact hgate
          · have h1 := ihall x hx2
            have h2 := hgate
            have h3 := minRepMs_pos ex2
            omega
      · have hr' : r.repDetected = false := by
          cases hd : r.repDetected
          · rfl
          · exact absurd hd hr
        obtain ⟨-, hlast⟩ := hfalse hr'
        rw [hlast] at ihall
        simp only [repTimes, hupd, hr', Bool.false_eq_true, if_false]
        exact ⟨ihc, ihall⟩

/-- C2: no two confirmed reps of the selected exercise lie within
`MIN_REP_MS` of each other: along any run the consecutive confirmed-rep
timestamps differ by more than the profile's `MIN_REP_MS`, and at step level a
rep at time `t` is confirmed only when `t - lastRepTime > MIN_REP_MS`, the
confirmation restamping `lastRepTime := t`. -/
theorem c2_refractory :
    ∀ (sqrtFn : ℚ → ℚ) (k : String) (ex : Exercise), parseKey k = some ex →
      (∀ l : List SampleIn,
        (repTimes sqrtFn (initDetector (some k)) l).Chain'
          fun a b => (EXERCISE_THRESHOLDS ex).minRepMs < b - a)
      ∧ (∀ (st : DetState) (i : SampleIn) (st' : DetState) (r : RepResult),
          st.currentExercise = some k → update sqrtFn st i = .ok (st', r) →
          r.repDetected = true →
          (EXERCISE_THRESHOLDS ex).minRepMs < i.t - st.lastRepTime ∧
          st'.lastRepTime = i.t) := by
  intro sqrtFn k ex hk
  constructor
  · intro l
    exact (repTimes_chain hk l (initDetector (some k)) rfl).1
  · intro st i st' r hst hupd hr
    obtain ⟨-, htrue, -⟩ := update_ok_char hupd
    obtain ⟨k2, ex2, hk2, hpk2, -, -, -, hlast, hgate⟩ := htrue hr
    have hkk : k2 = k := by
      rw [hst] at hk2
      exact (Option.some.inj hk2).symm
    subst hkk
    have hexx : ex2 = ex := by
      rw [hk] at hpk2
      exact (Option.some.inj hpk2).symm
    subst hexx
    exact ⟨hgate, hlast⟩

theorem c2_refractory_witness :
    (EXERCISE_THRESHOLDS .NORMAL_CURL).minRepMs < c2Input.t - c2StartState.lastRepTime ∧
    c2Step.1.lastRepTime = c2Input.t := by
  have hupd : update sqrtOne c2StartState c2Input = .ok (c2Step.1, c2Step.2) := rfl
  have hr : c2Step.2.repDetected = true := rfl
  exact (c2_refractory sqrtOne "NORMAL_CURL" .NORMAL_CURL rfl).2
    c2StartState c2Input c2Step.1 c2Step.2 rfl hupd hr

/-! ## C3: state and energy right after a confirmed rep -/

/-- C3: immediately after any confirmed rep (a peak that passed the rep-gyro
threshold, the refractory gate and the exercise validity predicate) the
movement state is IDLE and the accumulated energy is 0. -/
theorem c3_post_rep_reset :
    ∀ (sqrtFn : ℚ → ℚ) (st : DetState) (i : SampleIn) (st' : DetState)
      (r : RepResult), update sqrtFn st i = .ok (st', r) → r.repDetected = true →
      st'.state = .IDLE ∧ st'.energy = 0 := by
  intro sqrtFn st i st' r h hr
  obtain ⟨-, htrue, -⟩ := update_ok_char h
  obtain ⟨-, -, -, -, -, hstate, hen, -, -⟩ := htrue hr
  exact ⟨hstate, hen⟩

theorem c3_post_rep_reset_witness :
    c3Step.1.state = .IDLE ∧ c3Step.1.energy = 0 := by
  have hupd : update sqrtOne c3StartState c3Input = .ok (c3Step.1, c3Step.2) := rfl
  have hr : c3Step.2.repDetected = true := rfl
  exact c3_post_rep_reset sqrtOne c3StartState c3Input c3Step.1 c3Step.2 hupd hr

/-! ## C4: reset versus a fresh detector -/

/-- C4 (amended): `reset()` restores every piece of mutable detector state
except the gravity estimate `gVec` (and the never-written `accBuffer`), which
it leaves untouched; consequently reset-then-process is bit-identical to a
freshly constructed detector with the same selected exercise exactly when the
gravity estimate (and `accBuffer`) still equal their constructor values. -/
theorem c4_reset_except_gravity :
    (∀ st : DetState,
        resetDetector st =
          { initDetector st.currentExercise with
              gVec := st.gVec, accBuffer := st.accBuffer })
    ∧ (∀ st : DetState,
        st.gVec = (initDetector st.currentExercise).gVec →
        st.accBuffer = (initDetector st.currentExercise).accBuffer →
        ∀ (sqrtFn : ℚ → ℚ) (l : List SampleIn),
          runDet sqrtFn (resetDetector st) l
            = runDet sqrtFn (initDetector st.currentExercise) l) := by
  constructor
  · intro st
    rfl
  · intro st h1 h2 sqrtFn l
    have h3 : resetDetector st = initDetector st.currentExercise := by
      rw [show resetDetector st
            = { initDetector st.currentExercise with
                  gVec := st.gVec, accBuffer := st.accBuffer } from rfl,
          h1, h2]
    rw [h3]

theorem c4_reset_except_gravity_witness :
    runDet sqrtOne (resetDetector (initDetector (some "NORMAL_CURL")))
        [⟨⟨1, 0, 0⟩, ⟨0, 0, 981/100⟩, 5⟩]
      = runDet sqrtOne (initDetector (some "NORMAL_CURL"))
        [⟨⟨1, 0, 0⟩, ⟨0, 0, 981/100⟩, 5⟩] :=
  c4_reset_except_gravity.2 (initDetector (some "NORMAL_CURL")) rfl rfl
    sqrtOne [⟨⟨1, 0, 0⟩, ⟨0, 0, 981/100⟩, 5⟩]

/-- C4 counterexample: process one sample with a tilted accelerometer reading
and call `reset()`.  The gravity estimate stays at the blended value
`(981/200, 0, 981/200)` instead of the constructor value `(0, 0, 981/100)`, so
the reset detector differs from a fresh one, and feeding both the same next
sample already yields different extracted features (different `gU`): the
behavior is not bit-identical. -/
theorem c4_counterexample :
    c4AfterReset.gVec ≠ (initDetector (some "NORMAL_CURL")).gVec ∧
    c4AfterReset ≠ initDetector (some "NORMAL_CURL") ∧
    (extractFeatures sqrtOne c4AfterReset ⟨0, 1, 0⟩ ⟨0, 0, 981/100⟩).2.gU ≠
      (extractFeatures sqrtOne (initDetector (some "NORMAL_CURL"))
        ⟨0, 1, 0⟩ ⟨0, 0, 981/100⟩).2.gU := by
  refine ⟨by decide, by decide, by decide⟩

/-! ## C9: unknown or unset exercise key -/

/-- C9: an unknown (set but unsupported) exercise key does not produce a
distinct reportable condition: `EXERCISE_THRESHOLDS[currentExercise]` is
`undefined` and the first threshold read inside `detectRep` throws a
`TypeError` (the `Except.error`), crashing the update; an unset key silently
returns the ordinary no-rep result.  This contradicts the specified behavior. -/
theorem c9_unknown_key_throws :
    detectRep (initDetector (some "PUSHUP")) c9Features 0 = .error .typeError ∧
    detectRep (initDetector none) c9Features 0
      = .ok (initDetector none, ⟨false, false⟩) :=
  ⟨rfl, rfl⟩

/-! ## C5: stuck-movement (missed-rep) recovery -/

theorem repPhase2_missedReps (ex : Exercise) (th : Thresholds) (st : DetState2)
    (f : Features) (t : ℤ) (gt : Option Exercise) :
    (repPhase2 ex th st f t gt).1.missedReps = st.missedReps := by
  unfold repPhase2
  split <;> (dsimp only; split <;> rfl)

/-- C5: whenever the rep phase of the auto-classifying `detectRep` leaves the
state machine MOVING more than 3000 ms after the last confirmed rep with
accumulated energy above half the exercise's energy threshold, the call
increments `missedReps` and forces `state = IDLE`, `energy = 0`. -/
theorem c5_missed_rep_recovery :
    ∀ (ex : Exercise) (st : DetState2) (f : Features) (t : ℤ)
      (gt : Option Exercise) (p : DetState2 × RepResult2),
      st.currentExercise = some ex →
      repPhase2 ex (EXERCISE_THRESHOLDS2 ex) st f t gt = p →
      p.1.state = .MOVING →
      3000 < t - p.1.lastRepTime →
      (EXERCISE_THRESHOLDS2 ex).energyThresh * (1/2) < p.1.energy →
      (detectRep2 st f t gt).1.missedReps = st.missedReps + 1 ∧
      (detectRep2 st f t gt).1.state = .IDLE ∧
      (detectRep2 st f t gt).1.energy = 0 := by
  intro ex st f t gt p hcur hp hmov htime hen
  have hmr : p.1.missedReps = st.missedReps := by
    rw [← hp]
    exact repPhase2_missedReps ex (EXERCISE_THRESHOLDS2 ex) st f t gt
  simp only [detectRep2, hcur, hp]
  unfold missedRepCheck
  rw [if_pos ⟨hmov, htime⟩, if_pos hen]
  exact ⟨by simpa using hmr, rfl, rfl⟩

theorem c5_missed_rep_recovery_witness :
    (detectRep2 c5Start c5Feat 5000 none).1.missedReps = c5Start.missedReps + 1 ∧
    (detectRep2 c5Start c5Feat 5000 none).1.state = .IDLE ∧
    (detectRep2 c5Start c5Feat 5000 none).1.energy = 0 := by
  refine c5_missed_rep_recovery .NORMAL_CURL c5Start c5Feat 5000 none
    (repPhase2 .NORMAL_CURL (EXERCISE_THRESHOLDS2 .NORMAL_CURL) c5Start c5Feat 5000 none)
    rfl rfl ?_ ?_ ?_
  · decide
  · decide
  · decide

/-! ## C6: the peak detector on increasing-then-flat input -/

/-- C6 counterexample: the input values `1, 2, 3, 5, 5, 5, 5, 5` are strictly
monotonically increasing and then flat, yet the detector reports three peaks,
at timestamps 3, 4 and 5 — samples lying inside one 5-sample window — because
the non-strict window-maximum test fires at every sample of the plateau. -/
theorem c6_counterexample :
    (c6Input.map Prod.fst).take 4 = [1, 2, 3, 5] ∧
    (c6Input.map Prod.fst).drop 3 = [5, 5, 5, 5, 5] ∧
    ((1 : ℚ) < 2 ∧ (2 : ℚ) < 3 ∧ (3 : ℚ) < 5) ∧
    peakRunOuts initPeakState c6Input
      = [none, none, none, none, none, some (5, 3), some (5, 4), some (5, 5)] :=
  ⟨rfl, rfl, ⟨by decide, by decide, by decide⟩, rfl⟩

theorem isPeakWindow_sorted_false (w : List (ℚ × ℤ))
    (hsort : (w.map Prod.fst).Pairwise (· < ·)) (hlen : 3 ≤ w.length) :
    isPeakWindow w = false := by
  have hp : w.Pairwise (fun a b => a.1 < b.1) := List.pairwise_map.mp hsort
  rw [Bool.eq_false_iff]
  intro hall
  simp only [isPeakWindow] at hall
  rw [List.all_eq_true] at hall
  have hmidlt : w.length / 2 < w.length := by omega
  have hlastlt : w.length - 1 < w.length := by omega
  have h1 := hall (w.length - 1) (List.mem_range.mpr hlastlt)
  rw [Bool.or_eq_true, decide_eq_true_iff, decide_eq_true_iff] at h1
  rcases h1 with h1 | h1
  · omega
  · rw [List.getD_eq_get _ _ hlastlt, List.getD_eq_get _ _ hmidlt] at h1
    have h2 := List.pairwise_iff_get.mp hp ⟨w.length / 2, hmidlt⟩
      ⟨w.length - 1, hlastlt⟩ (by simp only [Fin.mk_lt_mk]; omega)
    exact absurd h1 (not_le.mpr h2)

theorem peakDetect_sorted (ps : PeakState) (v : ℚ) (t : ℤ)
    (h : ((ps.window ++ [(v, t)]).map Prod.fst).Pairwise (· < ·)) :
    (peakDetect ps v t).2 = none ∧
    List.Sublist (peakDetect ps v t).1.window (ps.window ++ [(v, t)]) := by
  have htail : ((((ps.window ++ [(v, t)]).tail)).map Prod.fst).Pairwise (· < ·) :=
    List.Pairwise.sublist ((List.tail_sublist _).map Prod.fst) h
  unfold peakDetect
  dsimp only
  split
  · -- window overflow: the kept window is the tail
    split
    · exact ⟨rfl, List.tail_sublist _⟩
    · rename_i hlen3
      split
      · rename_i hpk
        rw [isPeakWindow_sorted_false _ htail (by omega)] at hpk
        exact absurd hpk (by simp)
      · exact ⟨rfl, List.tail_sublist _⟩
  · -- window kept whole
    split
    · exact ⟨rfl, List.Sublist.refl _⟩
    · rename_i hlen3
      split
      · rename_i hpk
        rw [isPeakWindow_sorted_false _ h (by omega)] at hpk
        exact absurd hpk (by simp)
      · exact ⟨rfl, List.Sublist.refl _⟩

theorem peakRunOuts_sorted :
    ∀ (l : List (ℚ × ℤ)) (ps : PeakState),
      ((ps.window ++ l).map Prod.fst).Pairwise (· < ·) →
      ∀ o ∈ peakRunOuts ps l, o = none := by
  intro l
  induction l with
  | nil =>
    intro ps h o ho
    simp [peakRunOuts] at ho
  | cons vt l ih =>
    intro ps h o ho
    obtain ⟨v, t⟩ := vt
    rw [List.append_cons] at h
    have hw1 : ((ps.window ++ [(v, t)]).map Prod.fst).Pairwise (· < ·) :=
      List.Pairwise.sublist ((List.sublist_append_left _ l).map Prod.fst) h
    have h2 := peakDetect_sorted ps v t hw1
    have h3 : (((peakDetect ps v t).1.window ++ l).map Prod.fst).Pairwise (· < ·) :=
      List.Pairwise.sublist ((h2.2.append_right l).map Prod.fst) h
    simp only [peakRunOuts] at ho
    rcases List.mem_cons.mp ho with h4 | h4
    · rw [h4, h2.1]
    · exact ih _ h3 o h4

/-- C6 (amended): on strictly monotonically increasing input the peak
detector never reports a peak, so in particular at most one peak per 5-sample
window; the original bound fails as soon as the input turns flat, because the
non-strict centered-maximum test then reports a peak at every plateau sample
(see the counterexample). -/
theorem c6_no_peak_on_strict_increase :
    ∀ l : List (ℚ × ℤ), (l.map Prod.fst).Pairwise (· < ·) →
      ∀ o ∈ peakRunOuts initPeakState l, o = none := by
  intro l h o ho
  refine peakRunOuts_sorted l initPeakState ?_ o ho
  simpa [initPeakState] using h

theorem c6_no_peak_on_strict_increase_witness :
    (peakRunOuts initPeakState [((1 : ℚ), (0 : ℤ)), (2, 1), (3, 2)]).getD 2 (some (0, 0))
      = none :=
  c6_no_peak_on_strict_increase [((1 : ℚ), (0 : ℤ)), (2, 1), (3, 2)] (by decide)
    ((peakRunOuts initPeakState [((1 : ℚ), (0 : ℤ)), (2, 1), (3, 2)]).getD 2 (some (0, 0)))
    (by decide)

/-! ## C7: the nearest-reference classifier -/

theorem distSq_self (a : SDVec) : distSq a a = 0 := by
  simp [distSq]

theorem classifyStep_top (sqrtFn : ℚ → ℚ) (sd : SDVec) (x : String)
    (q : String × SDVec) :
    classifyStep sqrtFn sd (x, ⊤) q = (q.1, (refDist sqrtFn sd q : WithTop ℚ)) := by
  simp [classifyStep, refDist]

theorem classifyStep_coe (sqrtFn : ℚ → ℚ) (sd : SDVec) (x : String) (d : ℚ)
    (q : String × SDVec) :
    classifyStep sqrtFn sd (x, (d : WithTop ℚ)) q =
      if refDist sqrtFn sd q < d then (q.1, (refDist sqrtFn sd q : WithTop ℚ))
      else (x, (d : WithTop ℚ)) := by
  simp only [classifyStep, refDist, WithTop.coe_lt_coe]

/-- Unfolding the three-iteration nearest-reference loop into its four
possible outcomes (strictly-closer wins, so ties keep the earlier row). -/
theorem bestRef_cases (sqrtFn : ℚ → ℚ) (sd : SDVec) :
    bestRef sqrtFn sd =
      (if refDist sqrtFn sd hammerRef < refDist sqrtFn sd bicepRef then
        (if refDist sqrtFn sd arnoldRef < refDist sqrtFn sd hammerRef then
          (arnoldRef.1, (refDist sqrtFn sd arnoldRef : WithTop ℚ))
         else (hammerRef.1, (refDist sqrtFn sd hammerRef : WithTop ℚ)))
       else
        (if refDist sqrtFn sd arnoldRef < refDist sqrtFn sd bicepRef then
          (arnoldRef.1, (refDist sqrtFn sd arnoldRef : WithTop ℚ))
         else (bicepRef.1, (refDist sqrtFn sd bicepRef : WithTop ℚ)))) := by
  have h0 : bestRef sqrtFn sd
      = classifyStep sqrtFn sd (classifyStep sqrtFn sd
          (classifyStep sqrtFn sd ("UNKNOWN", ⊤) bicepRef) hammerRef) arnoldRef := rfl
  rw [h0, classifyStep_top, classifyStep_coe,
      apply_ite (fun b => classifyStep sqrtFn sd b arnoldRef),
      classifyStep_coe, classifyStep_coe]

/-- The loop always returns a reference row of minimal distance (the first
such row on ties). -/
theorem bestRef_min (sqrtFn : ℚ → ℚ) (sd : SDVec) :
    ∃ p ∈ REFERENCE_SD,
      bestRef sqrtFn sd = (p.1, (refDist sqrtFn sd p : WithTop ℚ)) ∧
      ∀ q ∈ REFERENCE_SD, refDist sqrtFn sd p ≤ refDist sqrtFn sd q := by
  have hb : bicepRef ∈ REFERENCE_SD := by simp [REFERENCE_SD]
  have hh : hammerRef ∈ REFERENCE_SD := by simp [REFERENCE_SD]
  have ha : arnoldRef ∈ REFERENCE_SD := by simp [REFERENCE_SD]
  have hmem : ∀ q ∈ REFERENCE_SD, q = bicepRef ∨ q = hammerRef ∨ q = arnoldRef := by
    intro q hq
    simpa [REFERENCE_SD] using hq
  rw [bestRef_cases]
  by_cases h1 : refDist sqrtFn sd hammerRef < refDist sqrtFn sd bicepRef
  · by_cases h2 : refDist sqrtFn sd arnoldRef < refDist sqrtFn sd hammerRef
    · refine ⟨arnoldRef, ha, by rw [if_pos h1, if_pos h2], ?_⟩
      intro q hq
      rcases hmem q hq with rfl | rfl | rfl
      · linarith
      · linarith
      · linarith
    · refine ⟨hammerRef, hh, by rw [if_pos h1, if_neg h2], ?_⟩
      intro q hq
      rcases hmem q hq with rfl | rfl | rfl
      · linarith
      · linarith
      · linarith [not_lt.mp h2]
  · by_cases h2 : refDist sqrtFn sd arnoldRef < refDist sqrtFn sd bicepRef
    · refine ⟨arnoldRef, ha, by rw [if_neg h1, if_pos h2], ?_⟩
      intro q hq
      rcases hmem q hq with rfl | rfl | rfl
      · linarith
      · linarith [not_lt.mp h1]
      · linarith
    · refine ⟨bicepRef, hb, by rw [if_neg h1, if_neg h2], ?_⟩
      intro q hq
      rcases hmem q hq with rfl | rfl | rfl
      · linarith
      · linarith [not_lt.mp h1]
      · linarith [not_lt.mp h2]

/-- C7: for any square-root model that is strictly monotone on nonnegatives
and sends 0 to 0, the classifier picks a reference of minimal distance and
keeps its label whenever that distance is at most the cutoff 5, returns
UNKNOWN whenever every reference is farther than the cutoff, and a distance of
exactly 0 (segment statistics equal to a reference vector) always selects that
reference's label. -/
theorem c7_nearest_reference :
    ∀ (sqrtFn : ℚ → ℚ) (sd : SDVec),
      (∀ x y : ℚ, 0 ≤ x → x < y → sqrtFn x < sqrtFn y) →
      sqrtFn 0 = 0 →
      (∃ p ∈ REFERENCE_SD,
          (∀ q ∈ REFERENCE_SD, refDist sqrtFn sd p ≤ refDist sqrtFn sd q) ∧
          (refDist sqrtFn sd p ≤ 5 → rawLabelOf sqrtFn sd = p.1)) ∧
      ((∀ q ∈ REFERENCE_SD, 5 < refDist sqrtFn sd q) →
          rawLabelOf sqrtFn sd = "UNKNOWN") ∧
      (∀ p ∈ REFERENCE_SD, sd = p.2 → rawLabelOf sqrtFn sd = p.1) := by
  intro sqrtFn sd hmono hzero
  obtain ⟨w, hw, hweq, hwmin⟩ := bestRef_min sqrtFn sd
  refine ⟨⟨w, hw, hwmin, ?_⟩, ?_, ?_⟩
  · intro hle
    unfold rawLabelOf
    rw [hweq]
    dsimp only
    rw [if_neg (by exact_mod_cast not_lt.mpr hle)]
  · intro hall
    unfold rawLabelOf
    rw [hweq]
    dsimp only
    rw [if_pos (by exact_mod_cast hall w hw)]
  · intro p hp hsd
    have hpos : ∀ p ∈ REFERENCE_SD, ∀ q ∈ REFERENCE_SD, q ≠ p → 0 < distSq p.2 q.2 := by
      decide
    have hdp : refDist sqrtFn sd p = 0 := by
      rw [refDist, hsd, distSq_self, hzero]
    have hwp : w = p := by
      by_contra hne
      have h1 : 0 < distSq p.2 w.2 := hpos p hp w hw hne
      have h2 : 0 < refDist sqrtFn sd w := by
        rw [refDist, hsd]
        calc (0 : ℚ) = sqrtFn 0 := hzero.symm
        _ < sqrtFn (distSq p.2 w.2) := hmono 0 _ le_rfl h1
      have h3 := hwmin p hp
      rw [hdp] at h3
      linarith
    unfold rawLabelOf
    rw [hweq, hwp, hdp]
    dsimp only
    rw [if_neg (by exact_mod_cast (by norm_num : ¬((5 : ℚ) < 0)))]

theorem c7_nearest_reference_witness :
    rawLabelOf sqrtId bicepRef.2 = bicepRef.1 :=
  (c7_nearest_reference sqrtId bicepRef.2
      (fun _ _ _ h => h) rfl).2.2 bicepRef (by simp [REFERENCE_SD]) rfl

/-! ## C8: short or rep-free buffers yield null -/

/-- C8: with a positive sampling rate, a buffer shorter than `fs` samples, or
one on which the selected segmentation produces no rep window, makes
`processIMURealtime` return null (`none`); the function is total, so neither
case throws. -/
theorem c8_null_on_short_or_no_rep :
    ∀ (sqrtFn : ℚ → ℚ) (buf : List Sample) (fs : ℕ), 0 < fs →
      (buf.length < fs ∨ (selectedReps sqrtFn buf fs).1 = []) →
      processIMURealtime sqrtFn buf fs = none := by
  intro sqrtFn buf fs hfs h
  unfold processIMURealtime
  by_cases hlen : buf.length < fs
  · rw [if_pos hlen]
  · rw [if_neg hlen]
    rcases h with h | h
    · exact absurd h hlen
    · simp only [h, List.getLast?_nil]

theorem c8_null_on_short_or_no_rep_witness :
    processIMURealtime sqrtId [] 1 = none :=
  c8_null_on_short_or_no_rep sqrtId [] 1 (by decide) (Or.inl (by decide))

/-! ## C10: final label and tally of the batch classifier -/

/-- C10: every non-null `processIMURealtime` result carries
`finalLabel = GOOD_BICEP` exactly when the raw nearest-reference label is
`BICEP`, and `BAD_CURL` in every other case — including `UNKNOWN` — and the
per-call `counts` object holds exactly one tally, in the `finalLabel` entry;
an unclassifiable segment is therefore still counted as a bad curl. -/
theorem c10_final_label_tally :
    ∀ (sqrtFn : ℚ → ℚ) (buf : List Sample) (fs : ℕ) (r : ProcOut),
      processIMURealtime sqrtFn buf fs = some r →
      (r.rawLabel = "BICEP" →
         r.finalLabel = "GOOD_BICEP" ∧ r.counts = ⟨1, 0⟩) ∧
      (r.rawLabel ≠ "BICEP" →
         r.finalLabel = "BAD_CURL" ∧ r.counts = ⟨0, 1⟩) := by
  intro sqrtFn buf fs r h
  have key : ∀ se : ℕ × ℕ,
      ((procResult sqrtFn buf fs se).rawLabel = "BICEP" →
        (procResult sqrtFn buf fs se).finalLabel = "GOOD_BICEP" ∧
        (procResult sqrtFn buf fs se).counts = ⟨1, 0⟩) ∧
      ((procResult sqrtFn buf fs se).rawLabel ≠ "BICEP" →
        (procResult sqrtFn buf fs se).finalLabel = "BAD_CURL" ∧
        (procResult sqrtFn buf fs se).counts = ⟨0, 1⟩) := by
    intro se
    unfold procResult
    dsimp only
    by_cases hraw : rawLabelOf sqrtFn
        (sdOfSeg sqrtFn ((buf.drop se.1).take (se.2 - se.1))) = "BICEP"
    · exact ⟨fun _ => ⟨by simp [hraw], by simp [hraw]⟩, fun hne => absurd hraw hne⟩
    · exact ⟨fun heq => absurd heq hraw, fun _ => ⟨by simp [hraw], by simp [hraw]⟩⟩
  unfold processIMURealtime at h
  split at h
  · exact absurd h (by simp)
  · split at h
    · exact absurd h (by simp)
    · rename_i se hse
      have hr := Option.some.inj h
      rw [← hr]
      exact key se

theorem c10_final_label_tally_witness :
    c10Out.finalLabel = "BAD_CURL" ∧ c10Out.counts = ⟨0, 1⟩ :=
  (c10_final_label_tally sqrtId c10Buf 1 c10Out rfl).2 (by decide)

end Gym
